import Mathlib

/-!
Shallow embedding of the haex-sync-server sync routes
(`src/routes/sync.ts`), the auth middleware (`src/middleware/auth.ts`)
and the database schema (`src/db/schema.ts`, here `src/unnamed/part_000`).

The Postgres-backed store is modelled as explicit state (`Db`): the two
tables are lists of rows, `nextId` models the `defaultRandom()` uuid
supply for primary keys (fresh ids), and `now` models `defaultNow()`
row-creation timestamps. Each HTTP handler becomes a pure function from
the request data and the state to the new state and the JSON response
(responses are modelled value-for-value, with status codes attached).
-/

/-- A row of the `sync_logs` table (schema.ts `syncLogs`). -/
structure SyncLog where
  id : Nat
  userId : String
  vaultId : String
  encryptedData : String
  nonce : String
  haexTimestamp : String
  sequence : Int
  createdAt : Nat
deriving DecidableEq, Repr

/-- A row of the `vault_keys` table (schema.ts `vaultKeys`). -/
structure VaultKeyRow where
  id : Nat
  userId : String
  vaultId : String
  encryptedVaultKey : String
  salt : String
  nonce : String
  createdAt : Nat
deriving DecidableEq, Repr

/-- The database state: the two tables plus the id supply and clock. -/
structure Db where
  vaultKeys : List VaultKeyRow
  syncLogs : List SyncLog
  nextId : Nat
  now : Nat
deriving DecidableEq, Repr

/-- One element of the `logs` array of a push request body. -/
structure LogInput where
  encryptedData : String
  nonce : String
  haexTimestamp : String
deriving DecidableEq, Repr

/-- The body of a vault-key create request. -/
structure VaultKeyInput where
  vaultId : String
  encryptedVaultKey : String
  salt : String
  nonce : String
deriving DecidableEq, Repr

/-- Hex digit test, for the uuid shape check. -/
def isHexDigit (c : Char) : Bool :=
  c.isDigit || (('a' ≤ c) && (c ≤ 'f')) || (('A' ≤ c) && (c ≤ 'F'))

/-- Models zod's `z.string().uuid()` validator used by the request
schemas in sync.ts: the 8-4-4-4-12 hexadecimal shape with hyphens at
positions 8, 13, 18 and 23. -/
def isUuid (s : String) : Bool :=
  let cs := s.toList
  cs.length == 36 &&
    cs.enum.all (fun p =>
      if p.1 == 8 || p.1 == 13 || p.1 == 18 || p.1 == 23 then p.2 == '-'
      else isHexDigit p.2)

/-- The user attached to the request context by the auth middleware. -/
structure UserCtx where
  userId : String
  email : Option String
  role : Option String
deriving DecidableEq, Repr

/-- A JSON error response with its HTTP status code. -/
structure ErrBody where
  status : Nat
  error : String
deriving DecidableEq, Repr

/-- Outcome of the auth middleware: the handler runs with a user, or the
request is rejected with an error response. -/
inductive AuthResult where
  | ok (u : UserCtx)
  | err (e : ErrBody)
deriving DecidableEq, Repr

/-- Models `authHeader.startsWith('Bearer ')`, over the character list. -/
def hasBearer (h : String) : Bool :=
  "Bearer ".toList.isPrefixOf h.toList

/-- Models `authHeader.substring(7)`: the header without its first seven
characters. -/
def dropBearer (h : String) : String :=
  String.mk (h.toList.drop 7)

/-- auth.ts `authMiddleware`: reads the `Authorization` header (absent
header is `none`); a missing header or one without the `Bearer ` prefix
is rejected before the verifier runs; otherwise the token after the
7-character prefix is passed to the external verifier (`verify` models
`supabase.auth.getUser`; `none` covers both an error result and a thrown
exception, which the catch block maps to the same response). -/
def authMiddleware (authHeader : Option String) (verify : String → Option UserCtx) :
    AuthResult :=
  match authHeader with
  | none => .err { status := 401, error := "Unauthorized - Missing or invalid token" }
  | some h =>
    if !(hasBearer h) then
      .err { status := 401, error := "Unauthorized - Missing or invalid token" }
    else
      match verify (dropBearer h) with
      | none => .err { status := 401, error := "Unauthorized - Invalid token" }
      | some u => .ok u

/-- sync.ts: `db.query.vaultKeys.findFirst` with
`and(eq(userId, u), eq(vaultId, vid))`. -/
def findVaultKey (db : Db) (u vid : String) : Option VaultKeyRow :=
  db.vaultKeys.find? (fun r => r.userId == u && r.vaultId == vid)

/-- Response of POST /sync/vault-key. -/
inductive VkCreateResponse where
  | validationError
  | conflict
  | created (id : Nat) (vaultId : String) (createdAt : Nat)
deriving DecidableEq, Repr

def VkCreateResponse.status : VkCreateResponse → Nat
  | .validationError => 400
  | .conflict => 409
  | .created _ _ _ => 201

/-- sync.ts POST /sync/vault-key: zValidator checks the body shape
(vaultId must be a uuid) before the handler; the handler checks for an
existing key of the caller and returns 409, else inserts the row and
returns only id, vaultId, createdAt. The catch branch is unreachable in
this sequential model, since the check-then-insert never violates the
unique index here. -/
def createVaultKey (db : Db) (u : String) (inp : VaultKeyInput) :
    Db × VkCreateResponse :=
  if isUuid inp.vaultId = false then (db, .validationError)
  else
    match findVaultKey db u inp.vaultId with
    | some _ => (db, .conflict)
    | none =>
      let row : VaultKeyRow :=
        { id := db.nextId, userId := u, vaultId := inp.vaultId
          encryptedVaultKey := inp.encryptedVaultKey, salt := inp.salt
          nonce := inp.nonce, createdAt := db.now }
      ({ db with vaultKeys := db.vaultKeys ++ [row], nextId := db.nextId + 1 },
       .created row.id row.vaultId row.createdAt)

/-- The vault-key body returned by GET /sync/vault-key/:vaultId. -/
structure VkView where
  vaultId : String
  encryptedVaultKey : String
  salt : String
  nonce : String
  createdAt : Nat
deriving DecidableEq, Repr

/-- Projection of a stored row to the GET response body. -/
def vkView (r : VaultKeyRow) : VkView :=
  { vaultId := r.vaultId, encryptedVaultKey := r.encryptedVaultKey
    salt := r.salt, nonce := r.nonce, createdAt := r.createdAt }

/-- Response of GET /sync/vault-key/:vaultId. -/
inductive VkGetResponse where
  | notFound
  | ok (vaultKey : VkView)
deriving DecidableEq, Repr

def VkGetResponse.status : VkGetResponse → Nat
  | .notFound => 404
  | .ok _ => 200

/-- sync.ts GET /sync/vault-key/:vaultId: the path parameter is used as
is — no zValidator and no uuid check on this route — and the lookup is
scoped to the authenticated user. -/
def getVaultKey (db : Db) (u vid : String) : VkGetResponse :=
  match findVaultKey db u vid with
  | none => .notFound
  | some r => .ok (vkView r)

/-- sync.ts push: `findFirst where userId = u orderBy desc(sequence)`,
then `maxSeqResult?.sequence || 0` (0 when the user has no rows; a
stored 0 maps to 0 under JS `||` as well, so `getD 0` is exact). -/
def userMaxSeq (db : Db) (u : String) : Int :=
  (((db.syncLogs.filter (fun r => r.userId == u)).map
    (fun r => r.sequence)).max?).getD 0

/-- The rows built by push's `logs.map` callback: entry i (0-based, in
submission order) gets sequence `cur + i + 1` (the `++currentSequence`
pre-increment), a fresh primary key and the insertion timestamp. -/
def assignRows (u vid : String) (cur : Int) (baseId nowTs : Nat)
    (logs : List LogInput) : List SyncLog :=
  logs.enum.map (fun p =>
    { id := baseId + p.1, userId := u, vaultId := vid
      encryptedData := p.2.encryptedData, nonce := p.2.nonce
      haexTimestamp := p.2.haexTimestamp
      sequence := cur + (p.1 : Int) + 1, createdAt := nowTs })

/-- Whether the multi-row INSERT of the batch violates the unique index
`sync_logs_user_timestamp_idx` on (user_id, haex_timestamp): some entry
repeats a stored timestamp of the same user, or two entries of the batch
share a timestamp (all batch rows carry the same userId). -/
def insertConflict (db : Db) (u : String) (logs : List LogInput) : Bool :=
  logs.any (fun l =>
    db.syncLogs.any (fun r => r.userId == u && r.haexTimestamp == l.haexTimestamp))
  || !(decide (logs.map (fun l => l.haexTimestamp)).Nodup)

/-- One element of the `logs` array of the push response
(`returning({id, sequence, haexTimestamp, createdAt})`). -/
structure PushedView where
  id : Nat
  sequence : Int
  haexTimestamp : String
  createdAt : Nat
deriving DecidableEq, Repr

/-- Projection of an inserted row to the push response. -/
def pushView (r : SyncLog) : PushedView :=
  { id := r.id, sequence := r.sequence
    haexTimestamp := r.haexTimestamp, createdAt := r.createdAt }

/-- Response of POST /sync/push. -/
inductive PushResponse where
  | validationError
  | internalError
  | ok (count : Nat) (logs : List PushedView)
deriving DecidableEq, Repr

def PushResponse.status : PushResponse → Nat
  | .validationError => 400
  | .internalError => 500
  | .ok _ _ => 200

/-- sync.ts POST /sync/push. zValidator rejects a non-uuid vaultId
first. Inside the try block: the max-sequence read, then
`db.insert(syncLogs).values(...)`. Drizzle's `values()` throws on an
empty array ("values() must be called with at least one value"), and a
multi-row INSERT that violates the unique (user_id, haex_timestamp)
index raises and commits nothing (a single SQL statement is atomic);
both errors land in the catch block, which answers 500 with the store
unchanged. On success all rows are appended and the response carries the
count and the returned projections in submission order. -/
def pushStep (db : Db) (u vid : String) (logs : List LogInput) :
    Db × PushResponse :=
  if isUuid vid = false then (db, .validationError)
  else
    let cur := userMaxSeq db u
    if logs.isEmpty then (db, .internalError)
    else if insertConflict db u logs then (db, .internalError)
    else
      let newRows := assignRows u vid cur db.nextId db.now logs
      let db' : Db :=
        { db with syncLogs := db.syncLogs ++ newRows, nextId := db.nextId + logs.length }
      (db', .ok logs.length (newRows.map pushView))

/-- The pull WHERE clause: owner, vault, and `gt(sequence, afterSequence)`
only when afterSequence was supplied. -/
def qualifies (u vid : String) (after : Option Int) (r : SyncLog) : Bool :=
  r.userId == u && r.vaultId == vid &&
    (match after with
     | none => true
     | some a => decide (a < r.sequence))

/-- The ORDER BY relation of pull: ascending `sequence`. -/
def seqLE (a b : SyncLog) : Prop := a.sequence ≤ b.sequence

instance : DecidableRel seqLE :=
  fun a b => inferInstanceAs (Decidable (a.sequence ≤ b.sequence))

instance : IsTotal SyncLog seqLE := ⟨fun x y => Int.le_total x.sequence y.sequence⟩

instance : IsTrans SyncLog seqLE := ⟨fun _ _ _ => Int.le_trans⟩

/-- One element of the `logs` array of the pull response. -/
structure LogView where
  id : Nat
  encryptedData : String
  nonce : String
  haexTimestamp : String
  sequence : Int
  createdAt : Nat
deriving DecidableEq, Repr

/-- Projection of a stored row to the pull response. -/
def logView (r : SyncLog) : LogView :=
  { id := r.id, encryptedData := r.encryptedData, nonce := r.nonce
    haexTimestamp := r.haexTimestamp, sequence := r.sequence
    createdAt := r.createdAt }

/-- Response of POST /sync/pull. -/
inductive PullResponse where
  | validationError
  | ok (logs : List LogView) (hasMore : Bool)
deriving DecidableEq, Repr

/-- sync.ts POST /sync/pull. zValidator checks vaultId is a uuid and
`limit` is an integer in 1..1000 (the 100 default is applied by zod
before the handler, so the handler always sees a concrete limit). The
handler SELECTs the qualifying rows ordered by sequence with
`limit + 1`, sets hasMore when the extra row came back, and answers the
first `limit` rows. The sort models ORDER BY sequence (stable). Pull
writes nothing: the state comes back unchanged on every path. -/
def pullStep (db : Db) (u vid : String) (after : Option Int) (limit : Nat) :
    Db × PullResponse :=
  if (isUuid vid && decide (1 ≤ limit) && decide (limit ≤ 1000)) = false then
    (db, .validationError)
  else
    let rows := db.syncLogs.filter (qualifies u vid after)
    let sorted := List.insertionSort seqLE rows
    let fetched := sorted.take (limit + 1)
    let hasMore := decide (limit < fetched.length)
    let returnLogs := fetched.take limit
    (db, .ok (returnLogs.map logView) hasMore)

/-! ## Concrete test data used by witnesses and counterexamples -/

/-- A well-formed vault uuid used in concrete scenarios. -/
def vaultA : String := "11111111-1111-1111-1111-111111111111"

/-- State for the spec's push scenario: the user's maximum sequence is 5. -/
def dbC1 : Db :=
  { vaultKeys := []
    syncLogs := [{ id := 1, userId := "u1", vaultId := vaultA, encryptedData := "x"
                   nonce := "n0", haexTimestamp := "t0", sequence := 5, createdAt := 50 }]
    nextId := 10, now := 100 }

/-- The spec's two-entry push batch. -/
def batchC1 : List LogInput :=
  [{ encryptedData := "A", nonce := "n1", haexTimestamp := "t1" },
   { encryptedData := "B", nonce := "n2", haexTimestamp := "t2" }]

/-- State for the spec's pull scenario: sequences 6, 7, 8 in one vault. -/
def dbPull : Db :=
  { vaultKeys := []
    syncLogs :=
      [{ id := 1, userId := "u1", vaultId := vaultA, encryptedData := "a"
         nonce := "n1", haexTimestamp := "t1", sequence := 6, createdAt := 50 },
       { id := 2, userId := "u1", vaultId := vaultA, encryptedData := "b"
         nonce := "n2", haexTimestamp := "t2", sequence := 7, createdAt := 51 },
       { id := 3, userId := "u1", vaultId := vaultA, encryptedData := "c"
         nonce := "n3", haexTimestamp := "t3", sequence := 8, createdAt := 52 }]
    nextId := 10, now := 100 }

/-- State with one stored entry whose timestamp is "t1". -/
def dbDup : Db :=
  { vaultKeys := []
    syncLogs := [{ id := 1, userId := "u1", vaultId := vaultA, encryptedData := "A"
                   nonce := "n1", haexTimestamp := "t1", sequence := 1, createdAt := 10 }]
    nextId := 2, now := 20 }

/-- A batch that repeats the stored timestamp "t1" of the same user. -/
def dupBatch : List LogInput :=
  [{ encryptedData := "B", nonce := "n2", haexTimestamp := "t1" }]

/-- The empty store. -/
def dbEmpty : Db := { vaultKeys := [], syncLogs := [], nextId := 0, now := 0 }

/-- State holding one vault key owned by alice. -/
def dbIso : Db :=
  { vaultKeys := [{ id := 1, userId := "alice", vaultId := vaultA
                    encryptedVaultKey := "ek", salt := "s", nonce := "n", createdAt := 5 }]
    syncLogs := [], nextId := 2, now := 9 }

/-- A verifier that accepts no token. -/
def noVerify : String → Option UserCtx := fun _ => none

/-! ## Helper lemmas -/

/-- On a valid, non-empty, conflict-free batch, push appends the
assigned rows and answers 200 with their projections. -/
theorem pushStep_eq_ok (db : Db) (u vid : String) (logs : List LogInput)
    (hv : isUuid vid = true) (hne : logs ≠ [])
    (hc : insertConflict db u logs = false) :
    pushStep db u vid logs =
      ({ db with
          syncLogs := db.syncLogs ++ assignRows u vid (userMaxSeq db u) db.nextId db.now logs,
          nextId := db.nextId + logs.length },
        PushResponse.ok logs.length
          ((assignRows u vid (userMaxSeq db u) db.nextId db.now logs).map pushView)) := by
  unfold pushStep
  rw [hv]
  simp [List.isEmpty_eq_false.mpr hne, hc]

/-- The sequences of the push response are `cur + 1, …, cur + n` in
submission order. -/
theorem assignRows_sequences (u vid : String) (cur : Int) (baseId nowTs : Nat)
    (logs : List LogInput) :
    ((assignRows u vid cur baseId nowTs logs).map pushView).map (fun e => e.sequence)
      = (List.range logs.length).map (fun i : Nat => cur + (i : Int) + 1) := by
  unfold assignRows
  conv_lhs => rw [List.map_map, List.map_map]
  conv_rhs => rw [← List.enum_map_fst logs, List.map_map]
  rfl

/-- The timestamps of the push response are the submitted ones, in
submission order. -/
theorem assignRows_timestamps (u vid : String) (cur : Int) (baseId nowTs : Nat)
    (logs : List LogInput) :
    ((assignRows u vid cur baseId nowTs logs).map pushView).map (fun e => e.haexTimestamp)
      = logs.map (fun l => l.haexTimestamp) := by
  unfold assignRows
  conv_lhs => rw [List.map_map, List.map_map]
  conv_rhs => rw [← List.enum_map_snd logs, List.map_map]
  rfl

/-- The ids of the push response are the freshly drawn consecutive ids. -/
theorem assignRows_ids (u vid : String) (cur : Int) (baseId nowTs : Nat)
    (logs : List LogInput) :
    ((assignRows u vid cur baseId nowTs logs).map pushView).map (fun e => e.id)
      = (List.range logs.length).map (fun i => baseId + i) := by
  unfold assignRows
  conv_lhs => rw [List.map_map, List.map_map]
  conv_rhs => rw [← List.enum_map_fst logs, List.map_map]
  rfl

/-- Every entry of the push response carries the insertion timestamp. -/
theorem assignRows_createdAt (u vid : String) (cur : Int) (baseId nowTs : Nat)
    (logs : List LogInput) :
    ((assignRows u vid cur baseId nowTs logs).map pushView).map (fun e => e.createdAt)
      = logs.map (fun _ => nowTs) := by
  unfold assignRows
  conv_lhs => rw [List.map_map, List.map_map]
  conv_rhs => rw [← List.enum_map_snd logs, List.map_map]
  rfl

/-- The push response has one entry per submitted log. -/
theorem assignRows_length (u vid : String) (cur : Int) (baseId nowTs : Nat)
    (logs : List LogInput) :
    ((assignRows u vid cur baseId nowTs logs).map pushView).length = logs.length := by
  simp [assignRows]

/-- Every row built for the batch belongs to the authenticated user. -/
theorem assignRows_userId {u vid : String} {cur : Int} {baseId nowTs : Nat}
    {logs : List LogInput} :
    ∀ row ∈ assignRows u vid cur baseId nowTs logs, row.userId = u := by
  intro row hr
  unfold assignRows at hr
  obtain ⟨p, _, rfl⟩ := List.mem_map.mp hr
  rfl

/-! ## Claim theorems -/

/-- C1: for every authenticated user and every non-empty push batch that
the store accepts, push assigns consecutive sequence numbers starting at
the user's current maximum across all vaults plus 1, in submission order
with no gaps, and the response reports count equal to the batch length
and per-entry id, sequence, haexTimestamp and createdAt in submission
order. -/
theorem push_assigns_consecutive_sequences (db : Db) (u vid : String)
    (logs : List LogInput) (hv : isUuid vid = true) (hne : logs ≠ [])
    (hc : insertConflict db u logs = false) :
    ∃ db' resp, pushStep db u vid logs = (db', PushResponse.ok logs.length resp) ∧
      resp.length = logs.length ∧
      resp.map (fun e => e.sequence)
        = (List.range logs.length).map (fun i : Nat => userMaxSeq db u + (i : Int) + 1) ∧
      resp.map (fun e => e.haexTimestamp) = logs.map (fun l => l.haexTimestamp) ∧
      resp.map (fun e => e.id) = (List.range logs.length).map (fun i => db.nextId + i) ∧
      resp.map (fun e => e.createdAt) = logs.map (fun _ => db.now) :=
  ⟨_, _, pushStep_eq_ok db u vid logs hv hne hc,
    assignRows_length u vid (userMaxSeq db u) db.nextId db.now logs,
    assignRows_sequences u vid (userMaxSeq db u) db.nextId db.now logs,
    assignRows_timestamps u vid (userMaxSeq db u) db.nextId db.now logs,
    assignRows_ids u vid (userMaxSeq db u) db.nextId db.now logs,
    assignRows_createdAt u vid (userMaxSeq db u) db.nextId db.now logs⟩

/-- Witness for C1: the spec scenario — current maximum 5, a two-entry
batch, response count 2 with sequences 6 then 7. -/
theorem push_assigns_consecutive_sequences_witness :
    ∃ db' resp, pushStep dbC1 "u1" vaultA batchC1 = (db', PushResponse.ok batchC1.length resp) ∧
      resp.length = batchC1.length ∧
      resp.map (fun e => e.sequence)
        = (List.range batchC1.length).map (fun i : Nat => userMaxSeq dbC1 "u1" + (i : Int) + 1) ∧
      resp.map (fun e => e.haexTimestamp) = batchC1.map (fun l => l.haexTimestamp) ∧
      resp.map (fun e => e.id) = (List.range batchC1.length).map (fun i => dbC1.nextId + i) ∧
      resp.map (fun e => e.createdAt) = batchC1.map (fun _ => dbC1.now) :=
  push_assigns_consecutive_sequences dbC1 "u1" vaultA batchC1
    (by decide) (by decide) (by decide)

/-- C9: for a user with no stored rows, the absent maximum is treated as
0, so the first entry of the first push gets sequence 1. -/
theorem first_push_starts_at_one (db : Db) (u vid : String) (logs : List LogInput)
    (hv : isUuid vid = true)
    (hnone : db.syncLogs.filter (fun r => r.userId == u) = [])
    (hne : logs ≠ [])
    (hnd : (logs.map (fun l => l.haexTimestamp)).Nodup) :
    ∃ db' resp, pushStep db u vid logs = (db', PushResponse.ok logs.length resp) ∧
      (resp.map (fun e => e.sequence)).head? = some 1 := by
  have hmax : userMaxSeq db u = 0 := by
    unfold userMaxSeq
    rw [hnone]
    rfl
  have hrows : ∀ r ∈ db.syncLogs, (r.userId == u) = false := by
    intro r hr
    have h := List.filter_eq_nil_iff.mp hnone r hr
    simpa using h
  have hc : insertConflict db u logs = false := by
    unfold insertConflict
    rw [Bool.or_eq_false_iff]
    constructor
    · rw [List.any_eq_false]
      intro l _
      rw [Bool.not_eq_true, List.any_eq_false]
      intro r hr
      simp [hrows r hr]
    · simp [hnd]
  refine ⟨_, _, pushStep_eq_ok db u vid logs hv hne hc, ?_⟩
  rw [assignRows_sequences, hmax]
  obtain ⟨a, as, rfl⟩ : ∃ a as, logs = a :: as := by
    cases logs with
    | nil => exact absurd rfl hne
    | cons a as => exact ⟨a, as, rfl⟩
  simp [List.range_succ_eq_map]

/-- Witness for C9: an empty store and a singleton batch; the single
response entry carries sequence 1. -/
theorem first_push_starts_at_one_witness :
    ∃ db' resp, pushStep dbEmpty "u9" vaultA
        [{ encryptedData := "A", nonce := "n1", haexTimestamp := "t1" }] =
        (db', PushResponse.ok
          ([{ encryptedData := "A", nonce := "n1", haexTimestamp := "t1" }] :
            List LogInput).length resp) ∧
      (resp.map (fun e => e.sequence)).head? = some 1 :=
  first_push_starts_at_one dbEmpty "u9" vaultA
    [{ encryptedData := "A", nonce := "n1", haexTimestamp := "t1" }]
    (by decide) (by decide) (by decide) (by decide)

/-- C3 counterexample: pushing a batch whose single entry repeats the
caller's stored timestamp "t1" produces status 500 (InternalError), not
the claimed Conflict (409); the store is left unchanged. -/
theorem push_duplicate_not_conflict :
    (pushStep dbDup "u1" vaultA dupBatch).2.status = 500 ∧
    (pushStep dbDup "u1" vaultA dupBatch).2.status ≠ 409 ∧
    (pushStep dbDup "u1" vaultA dupBatch).1 = dbDup := by
  decide

/-- C3 (amended): if any entry of a push batch duplicates an existing
(userId, haexTimestamp) pair of the same user (or another entry of the
batch), the push fails with an InternalError (500) outcome — the generic
catch block, not a Conflict — and no entry of the batch is committed:
the store is left unchanged (whole-batch atomicity). -/
theorem push_duplicate_internal_error_atomic (db : Db) (u vid : String)
    (logs : List LogInput) (hv : isUuid vid = true)
    (hc : insertConflict db u logs = true) :
    pushStep db u vid logs = (db, PushResponse.internalError) := by
  unfold pushStep
  rw [hv]
  by_cases hl : logs.isEmpty = true
  · simp [hl]
  · rw [Bool.not_eq_true] at hl
    simp [hl, hc]

/-- Witness for the amended C3 at the concrete duplicate scenario. -/
theorem push_duplicate_internal_error_atomic_witness :
    pushStep dbDup "u1" vaultA dupBatch = (dbDup, PushResponse.internalError) :=
  push_duplicate_internal_error_atomic dbDup "u1" vaultA dupBatch
    (by decide) (by decide)

/-- C4 (code bug): a push whose logs list is empty does not succeed with
count 0 — drizzle's `values()` throws on an empty array, the catch block
answers 500 — though the store is indeed left unchanged. -/
theorem empty_push_internal_error :
    pushStep dbEmpty "u1" vaultA [] = (dbEmpty, PushResponse.internalError) := by
  decide

/-- On a valid request, pull answers 200 with the sorted window and the
limit+1 spill check, leaving the store untouched. -/
theorem pullStep_eq_ok (db : Db) (u vid : String) (after : Option Int) (limit : Nat)
    (hv : isUuid vid = true) (h1 : 1 ≤ limit) (h2 : limit ≤ 1000) :
    pullStep db u vid after limit =
      (db, PullResponse.ok
        ((((List.insertionSort seqLE (db.syncLogs.filter (qualifies u vid after))).take
            (limit + 1)).take limit).map logView)
        (decide (limit <
          ((List.insertionSort seqLE (db.syncLogs.filter (qualifies u vid after))).take
            (limit + 1)).length))) := by
  unfold pullStep
  simp [hv, h1, h2]

/-- Decomposition of the pull WHERE clause. -/
theorem qualifies_spec {u vid : String} {after : Option Int} {r : SyncLog}
    (h : qualifies u vid after r = true) :
    r.userId = u ∧ r.vaultId = vid ∧ ∀ a, after = some a → a < r.sequence := by
  unfold qualifies at h
  cases after with
  | none =>
    simp only [Bool.and_true, Bool.and_eq_true, beq_iff_eq] at h
    exact ⟨h.1, h.2, fun a ha => by cases ha⟩
  | some a =>
    simp only [Bool.and_eq_true, beq_iff_eq, decide_eq_true_iff] at h
    exact ⟨h.1.1, h.1.2, fun b hb => by cases hb; exact h.2⟩

/-- Every element of the returned pull window is the view of a stored
row that satisfies the WHERE clause. -/
theorem pull_take_mem {db : Db} {u vid : String} {after : Option Int} {limit : Nat}
    {l : LogView}
    (hl : l ∈ (((List.insertionSort seqLE (db.syncLogs.filter (qualifies u vid after))).take
      (limit + 1)).take limit).map logView) :
    ∃ row, row ∈ db.syncLogs ∧ qualifies u vid after row = true ∧ l = logView row := by
  obtain ⟨row, hrow, hE⟩ := List.mem_map.mp hl
  have hin : row ∈ List.insertionSort seqLE (db.syncLogs.filter (qualifies u vid after)) :=
    List.mem_of_mem_take (List.mem_of_mem_take hrow)
  have hfil : row ∈ db.syncLogs.filter (qualifies u vid after) :=
    (List.perm_insertionSort seqLE _).mem_iff.mp hin
  obtain ⟨hmem, hq⟩ := List.mem_filter.mp hfil
  exact ⟨row, hmem, hq, hE.symm⟩

/-- The sequences of the returned pull window are nondecreasing. -/
theorem pull_take_sorted (db : Db) (u vid : String) (after : Option Int) (limit : Nat) :
    List.Sorted (· ≤ ·)
      (((((List.insertionSort seqLE (db.syncLogs.filter (qualifies u vid after))).take
        (limit + 1)).take limit).map logView).map (fun l => l.sequence)) := by
  have hs : List.Sorted seqLE
      (List.insertionSort seqLE (db.syncLogs.filter (qualifies u vid after))) :=
    List.sorted_insertionSort seqLE _
  have ht : List.Sorted seqLE
      (((List.insertionSort seqLE (db.syncLogs.filter (qualifies u vid after))).take
        (limit + 1)).take limit) :=
    List.Pairwise.sublist ((List.take_sublist _ _).trans (List.take_sublist _ _)) hs
  rw [List.map_map]
  exact List.Pairwise.map _ (fun a b hab => hab) ht

/-- The limit+1 spill check decides exactly whether more qualifying rows
exist than the limit. -/
theorem pull_hasMore_iff (db : Db) (u vid : String) (after : Option Int) (limit : Nat) :
    (decide (limit <
        ((List.insertionSort seqLE (db.syncLogs.filter (qualifies u vid after))).take
          (limit + 1)).length) = true)
      ↔ limit < (db.syncLogs.filter (qualifies u vid after)).length := by
  rw [decide_eq_true_iff, List.length_take,
    (List.perm_insertionSort seqLE (db.syncLogs.filter (qualifies u vid after))).length_eq,
    lt_min_iff]
  omega

/-- C2: for every pull call with valid afterSequence and limit, every
returned entry is a stored row of the caller's (userId, vaultId) with
sequence strictly above afterSequence when one was given, the list is
sorted ascending by sequence with at most limit entries, and hasMore is
true iff more than limit qualifying rows exist. -/
theorem pull_sorted_window_spec (db : Db) (u vid : String) (after : Option Int)
    (limit : Nat) (hv : isUuid vid = true) (h1 : 1 ≤ limit) (h2 : limit ≤ 1000) :
    ∃ logs hasMore, pullStep db u vid after limit = (db, PullResponse.ok logs hasMore) ∧
      (∀ l ∈ logs, ∃ row, row ∈ db.syncLogs ∧ row.userId = u ∧ row.vaultId = vid ∧
        (∀ a, after = some a → a < row.sequence) ∧ l = logView row) ∧
      List.Sorted (· ≤ ·) (logs.map (fun l => l.sequence)) ∧
      logs.length ≤ limit ∧
      (hasMore = true ↔ limit < (db.syncLogs.filter (qualifies u vid after)).length) := by
  refine ⟨_, _, pullStep_eq_ok db u vid after limit hv h1 h2, ?_,
    pull_take_sorted db u vid after limit, ?_, pull_hasMore_iff db u vid after limit⟩
  · intro l hl
    obtain ⟨row, hmem, hq, hE⟩ := pull_take_mem hl
    obtain ⟨ha, hb, hcq⟩ := qualifies_spec hq
    exact ⟨row, hmem, ha, hb, hcq, hE⟩
  · rw [List.length_map]
    exact List.length_take_le _ _

/-- Witness for C2: the spec scenario — sequences 6, 7, 8, pull after 6
with limit 1. -/
theorem pull_sorted_window_spec_witness :
    ∃ logs hasMore, pullStep dbPull "u1" vaultA (some 6) 1 = (dbPull, PullResponse.ok logs hasMore) ∧
      (∀ l ∈ logs, ∃ row, row ∈ dbPull.syncLogs ∧ row.userId = "u1" ∧ row.vaultId = vaultA ∧
        (∀ a, (some 6 : Option Int) = some a → a < row.sequence) ∧ l = logView row) ∧
      List.Sorted (· ≤ ·) (logs.map (fun l => l.sequence)) ∧
      logs.length ≤ 1 ∧
      (hasMore = true ↔ 1 < (dbPull.syncLogs.filter (qualifies "u1" vaultA (some 6))).length) :=
  pull_sorted_window_spec dbPull "u1" vaultA (some 6) 1 (by decide) (by decide) (by decide)

/-- C8: pull is a pure, side-effect-free read — two calls with the same
arguments against the same store return identical results, and the store
is unchanged. -/
theorem pull_pure_read (db : Db) (u vid : String) (after : Option Int) (limit : Nat)
    (r1 r2 : Db × PullResponse)
    (h1 : r1 = pullStep db u vid after limit) (h2 : r2 = pullStep db u vid after limit) :
    r1 = r2 ∧ r1.1 = db := by
  subst h1
  subst h2
  refine ⟨rfl, ?_⟩
  unfold pullStep
  split
  · rfl
  · rfl

/-- Witness for C8 at the concrete pull scenario. -/
theorem pull_pure_read_witness :
    (pullStep dbPull "u1" vaultA (some 6) 1 : Db × PullResponse)
      = pullStep dbPull "u1" vaultA (some 6) 1 ∧
    (pullStep dbPull "u1" vaultA (some 6) 1).1 = dbPull :=
  pull_pure_read dbPull "u1" vaultA (some 6) 1 _ _ rfl rfl

/-- C5: a first vault-key create for a fresh (userId, vaultId) succeeds,
any subsequent create for the same pair returns Conflict and leaves the
store unchanged, and a find after the second create returns the first
create's data. -/
theorem vault_key_create_once (db : Db) (u : String) (inp inp2 : VaultKeyInput)
    (hv : isUuid inp.vaultId = true) (hsame : inp2.vaultId = inp.vaultId)
    (hnone : findVaultKey db u inp.vaultId = none) :
    ∃ db1 kid,
      createVaultKey db u inp = (db1, VkCreateResponse.created kid inp.vaultId db.now) ∧
      createVaultKey db1 u inp2 = (db1, VkCreateResponse.conflict) ∧
      getVaultKey db1 u inp.vaultId = VkGetResponse.ok
        { vaultId := inp.vaultId, encryptedVaultKey := inp.encryptedVaultKey
          salt := inp.salt, nonce := inp.nonce, createdAt := db.now } := by
  have hfind1 : findVaultKey
      { db with
        vaultKeys := db.vaultKeys ++
          [{ id := db.nextId, userId := u, vaultId := inp.vaultId
             encryptedVaultKey := inp.encryptedVaultKey, salt := inp.salt
             nonce := inp.nonce, createdAt := db.now }]
        nextId := db.nextId + 1 } u inp.vaultId
      = some { id := db.nextId, userId := u, vaultId := inp.vaultId
               encryptedVaultKey := inp.encryptedVaultKey, salt := inp.salt
               nonce := inp.nonce, createdAt := db.now } := by
    unfold findVaultKey at hnone ⊢
    rw [List.find?_append, hnone]
    simp
  refine ⟨{ db with
      vaultKeys := db.vaultKeys ++
        [{ id := db.nextId, userId := u, vaultId := inp.vaultId
           encryptedVaultKey := inp.encryptedVaultKey, salt := inp.salt
           nonce := inp.nonce, createdAt := db.now }]
      nextId := db.nextId + 1 }, db.nextId, ?_, ?_, ?_⟩
  · unfold createVaultKey
    rw [hv, hnone]
    rfl
  · unfold createVaultKey
    rw [hsame, hv, hfind1]
    rfl
  · unfold getVaultKey
    rw [hfind1]
    rfl

/-- Witness for C5: the spec scenario of two creates for one vault
against the empty store, then a find. -/
theorem vault_key_create_once_witness :
    ∃ db1 kid,
      createVaultKey dbEmpty "u1"
          { vaultId := vaultA, encryptedVaultKey := "ek", salt := "s", nonce := "n" }
        = (db1, VkCreateResponse.created kid vaultA dbEmpty.now) ∧
      createVaultKey db1 "u1"
          { vaultId := vaultA, encryptedVaultKey := "ek2", salt := "s2", nonce := "n2" }
        = (db1, VkCreateResponse.conflict) ∧
      getVaultKey db1 "u1" vaultA = VkGetResponse.ok
        { vaultId := vaultA, encryptedVaultKey := "ek", salt := "s", nonce := "n"
          createdAt := dbEmpty.now } :=
  vault_key_create_once dbEmpty "u1"
    { vaultId := vaultA, encryptedVaultKey := "ek", salt := "s", nonce := "n" }
    { vaultId := vaultA, encryptedVaultKey := "ek2", salt := "s2", nonce := "n2" }
    (by decide) rfl (by decide)

/-- C10: the vault-key read path never validates the vaultId path
parameter — for every string it answers 200 or 404, never a validation
error — while create rejects a non-uuid vaultId as a validation error
before any store access, leaving the store unchanged. -/
theorem vault_key_get_no_uuid_validation (db : Db) (u vid : String)
    (inp : VaultKeyInput) (hnv : isUuid inp.vaultId = false) :
    ((getVaultKey db u vid).status = 200 ∨ (getVaultKey db u vid).status = 404) ∧
    createVaultKey db u inp = (db, VkCreateResponse.validationError) := by
  constructor
  · unfold getVaultKey
    cases h : findVaultKey db u vid <;> simp [VkGetResponse.status]
  · unfold createVaultKey
    rw [hnv]
    rfl

/-- Witness for C10 at a concrete malformed vaultId. -/
theorem vault_key_get_no_uuid_validation_witness :
    ((getVaultKey dbEmpty "u1" "not-a-uuid").status = 200 ∨
      (getVaultKey dbEmpty "u1" "not-a-uuid").status = 404) ∧
    createVaultKey dbEmpty "u1"
        { vaultId := "not-a-uuid", encryptedVaultKey := "e", salt := "s", nonce := "n" }
      = (dbEmpty, VkCreateResponse.validationError) :=
  vault_key_get_no_uuid_validation dbEmpty "u1" "not-a-uuid"
    { vaultId := "not-a-uuid", encryptedVaultKey := "e", salt := "s", nonce := "n" }
    (by decide)

/-- C7 counterexample: at concrete inputs, the response to a missing
Authorization header differs from the response to a failed token
verification — the two bodies carry different messages, so the caller
can distinguish the causes. -/
theorem auth_error_bodies_differ :
    authMiddleware none noVerify ≠ authMiddleware (some "Bearer tok") noVerify := by
  decide

/-- C7 (amended): a missing or malformed Authorization header and a
failed token verification each produce a 401 Unauthorized error
response, but the bodies differ ("Unauthorized - Missing or invalid
token" versus "Unauthorized - Invalid token"), so only the status code
is identical and the caller can tell the causes apart. -/
theorem auth_unauthorized_both_401 (verify : String → Option UserCtx) (hdr : String)
    (hb : hasBearer hdr = true) (hbad : verify (dropBearer hdr) = none) :
    ∃ e1 e2, authMiddleware none verify = AuthResult.err e1 ∧
      authMiddleware (some hdr) verify = AuthResult.err e2 ∧
      e1.status = 401 ∧ e2.status = 401 ∧ e1.error ≠ e2.error ∧
      (∀ m, hasBearer m = false → authMiddleware (some m) verify = AuthResult.err e1) := by
  refine ⟨{ status := 401, error := "Unauthorized - Missing or invalid token" },
    { status := 401, error := "Unauthorized - Invalid token" }, rfl, ?_, rfl, rfl, ?_, ?_⟩
  · simp only [authMiddleware]
    rw [hb, hbad]
    rfl
  · decide
  · intro m hm
    simp only [authMiddleware]
    rw [hm]
    rfl

/-- Witness for the amended C7 at concrete header and verifier. -/
theorem auth_unauthorized_both_401_witness :
    ∃ e1 e2, authMiddleware none noVerify = AuthResult.err e1 ∧
      authMiddleware (some "Bearer tok") noVerify = AuthResult.err e2 ∧
      e1.status = 401 ∧ e2.status = 401 ∧ e1.error ≠ e2.error ∧
      (∀ m, hasBearer m = false → authMiddleware (some m) noVerify = AuthResult.err e1) :=
  auth_unauthorized_both_401 noVerify "Bearer tok" (by decide) rfl

/-- C6: no endpoint ever returns a vault key or log entry stored under a
userId other than the authenticated caller's, for every vaultId — the
vault-key read returns only a row owned by the caller; every entry of a
pull response views a stored row owned by the caller; the rows a push
inserts and echoes all carry the caller's userId; and a vault-key create
response reflects a stored row owned by the caller. -/
theorem user_isolation (db : Db) (u vid : String) (after : Option Int) (limit : Nat)
    (inp : VaultKeyInput) (logs : List LogInput) :
    (∀ v, getVaultKey db u vid = VkGetResponse.ok v →
      ∃ row, row ∈ db.vaultKeys ∧ row.userId = u ∧ v = vkView row) ∧
    (∀ ls hm, (pullStep db u vid after limit).2 = PullResponse.ok ls hm →
      ∀ l ∈ ls, ∃ row, row ∈ db.syncLogs ∧ row.userId = u ∧ l = logView row) ∧
    (∀ db2 c resp, pushStep db u vid logs = (db2, PushResponse.ok c resp) →
      ∃ newRows, db2.syncLogs = db.syncLogs ++ newRows ∧
        (∀ row ∈ newRows, row.userId = u) ∧ resp = newRows.map pushView) ∧
    (∀ db2 kid kvid kca,
      createVaultKey db u inp = (db2, VkCreateResponse.created kid kvid kca) →
      ∃ row, row ∈ db2.vaultKeys ∧ row.userId = u ∧
        kid = row.id ∧ kvid = row.vaultId ∧ kca = row.createdAt) := by
  refine ⟨?_, ?_, ?_, ?_⟩
  · intro v hv2
    unfold getVaultKey findVaultKey at hv2
    cases hfind : db.vaultKeys.find? (fun r => r.userId == u && r.vaultId == vid) with
    | none => rw [hfind] at hv2; cases hv2
    | some r =>
      rw [hfind] at hv2
      injection hv2 with hv3
      have hp := List.find?_some hfind
      rw [Bool.and_eq_true, beq_iff_eq, beq_iff_eq] at hp
      exact ⟨r, List.mem_of_find?_eq_some hfind, hp.1, hv3.symm⟩
  · intro ls hm h
    unfold pullStep at h
    split at h
    · cases h
    · injection h with h1 h2
      intro l hl
      rw [← h1] at hl
      obtain ⟨row, hmem, hq, hE⟩ := pull_take_mem hl
      exact ⟨row, hmem, (qualifies_spec hq).1, hE⟩
  · intro db2 c resp h
    unfold pushStep at h
    split at h
    · exact absurd h (by simp)
    · split at h
      · exact absurd h (by simp)
      · split at h
        · exact absurd h (by simp)
        · rw [Prod.mk.injEq] at h
          obtain ⟨hdb, hresp⟩ := h
          injection hresp with hc2 hr
          refine ⟨assignRows u vid (userMaxSeq db u) db.nextId db.now logs, ?_,
            assignRows_userId, hr.symm⟩
          rw [← hdb]
  · intro db2 kid kvid kca h
    unfold createVaultKey at h
    split at h
    · exact absurd h (by simp)
    · split at h
      · exact absurd h (by simp)
      · rw [Prod.mk.injEq] at h
        obtain ⟨hdb, hresp⟩ := h
        injection hresp with h1 h2 h3
        refine ⟨{ id := db.nextId, userId := u, vaultId := inp.vaultId
                  encryptedVaultKey := inp.encryptedVaultKey, salt := inp.salt
                  nonce := inp.nonce, createdAt := db.now },
          ?_, rfl, h1.symm, h2.symm, h3.symm⟩
        rw [← hdb]
        simp

/-- Witness for C6: the vault-key read conjunct at a concrete store
holding alice's key. -/
theorem user_isolation_witness :
    ∃ row, row ∈ dbIso.vaultKeys ∧ row.userId = "alice" ∧
      ({ vaultId := vaultA, encryptedVaultKey := "ek", salt := "s", nonce := "n"
         createdAt := 5 } : VkView) = vkView row := by
  exact (user_isolation dbIso "alice" vaultA none 100
    { vaultId := vaultA, encryptedVaultKey := "e", salt := "s", nonce := "n" } []).1
    { vaultId := vaultA, encryptedVaultKey := "ek", salt := "s", nonce := "n"
      createdAt := 5 } (by decide)
